import Mathlib

/-!
Verification development for the pgModeler `Catalog` class
(`src/libpgconnector/src/catalog.h`).

The repository ships only the header: declarations and documentation
comments, no member-function bodies.  The behaviour of every member is
therefore modelled from the specification (the header's documentation
comments and the natural-language spec written from them), in a shallow
embedding:

  * `attribs_map` (C++ `map<QString,QString>`) is an association list of
    string pairs, one entry per attribute of a catalog row;
  * a `Connection` is a deterministic oracle mapping each catalog query
    (template kind, object type, substituted parameters) to the list of
    result rows;
  * a `Catalog` holds exactly one piece of state, the stored connection;
  * member functions are state-passing: each returns its result, the
    catalog state after the call, and the trace of catalog queries the
    call executed over the connection.
-/

namespace PgCatalog

/-- Object kinds handled by the catalog reader (subset of pgModeler's
`ObjectType` from `baseobject.h` that the `Catalog` interface names). -/
inductive ObjectType where
  | OBJ_DATABASE
  | OBJ_ROLE
  | OBJ_SCHEMA
  | OBJ_LANGUAGE
  | OBJ_TABLESPACE
  | OBJ_EXTENSION
  | OBJ_FUNCTION
  | OBJ_TABLE
  | OBJ_VIEW
  | OBJ_TYPE
deriving DecidableEq, Repr

/-- C++ `attribs_map` = `map<QString,QString>`: a catalog row as a
key-value attribute list. -/
abbrev attribs_map := List (String × String)

/-- Constant `Catalog::QUERY_LIST`: name of the list-command query template. -/
def QUERY_LIST : String := "list"

/-- Constant `Catalog::QUERY_ATTRIBS`: name of the attribute-retrieving query
template. -/
def QUERY_ATTRIBS : String := "attribs"

/-- Constant `Catalog::PGSQL_TRUE`: PostgreSQL textual boolean true. -/
def PGSQL_TRUE : String := "t"

/-- Constant `Catalog::PGSQL_FALSE`: PostgreSQL textual boolean false. -/
def PGSQL_FALSE : String := "f"

/-- Constant `Catalog::BOOL_FIELD`: suffix marking boolean-valued fields. -/
def BOOL_FIELD : String := "_bool"

/-- Modelled from the spec: a catalog query as sent to the connection.
The missing `catalog.cpp` builds the SQL from a named template selected
by the query kind and the object type, with the parameters substituted
in; the query is fully determined by these three components. -/
structure Query where
  qry_type : String
  obj_type : ObjectType
  params : attribs_map
deriving DecidableEq

/-- Modelled from the spec: the database connection, as the catalog
reader observes it — a deterministic oracle giving, for each templated
catalog query, the rows of its result set. -/
structure Connection where
  exec : Query → List attribs_map

/-- The `Catalog` class: its only data member besides the static query
template names is the stored `Connection`. -/
structure Catalog where
  connection : Connection

/-- Member `Catalog::setConnection`: changes the current connection used by the
catalog. -/
def Catalog.setConnection (cat : Catalog) (conn : Connection) : Catalog :=
  { cat with connection := conn }

/-- Modelled from the spec: `Catalog::executeCatalogQuery` (body missing
from the repository).  Per its documentation comment it executes, over
the stored connection, the query obtained from the template named by
`qry_type` for `obj_type` with `attribs` substituted in; when
`single_result` is true only one tuple of the result set is kept.
Returns the rows, the catalog state after the call, and the trace of
executed queries. -/
def Catalog.executeCatalogQuery (cat : Catalog) (qry_type : String)
    (obj_type : ObjectType) (single_result : Bool) (attribs : attribs_map) :
    List attribs_map × Catalog × List Query :=
  let q : Query := ⟨qry_type, obj_type, attribs⟩
  let rows := cat.connection.exec q
  (if single_result then rows.take 1 else rows, cat, [q])

/-- Character-level underscore-to-dash replacement, mirroring
`QString::replace("_", "-")` applied to an attribute name. -/
def replaceUC : List Char → List Char
  | [] => []
  | c :: cs => (if c = '_' then '-' else c) :: replaceUC cs

/-- Attribute-name renaming used by `changeAttributeNames`: every
underscore of the name becomes a dash. -/
def dashedName (s : String) : String :=
  String.mk (replaceUC s.data)

/-- Value adjustment used by `changeAttributeNames`: for a field whose
name has the suffix `_bool`, the PostgreSQL boolean ``t`` becomes ``1``
and ``f`` becomes the empty string (the downstream XML/Schema parsers
understand booleans as `1` or empty); other values pass through. -/
def boolAdjustedValue (name value : String) : String :=
  if name.endsWith BOOL_FIELD then
    if value = PGSQL_TRUE then "1"
    else if value = PGSQL_FALSE then ""
    else value
  else value

/-- Modelled from the spec: `Catalog::changeAttributeNames` (body missing
from the repository).  Per its documentation comment it recreates the
attribute map entry by entry, replacing underscores of each attribute
name by dashes and adjusting the values of `_bool`-suffixed fields. -/
def changeAttributeNames : attribs_map → attribs_map
  | [] => []
  | (name, value) :: rest =>
      (dashedName name, boolAdjustedValue name value) :: changeAttributeNames rest

/-- Parameter name under which a schema filter is passed to a catalog
query (pgModeler's `ParsersAttributes::SCHEMA`). -/
def ATTR_SCHEMA : String := "schema"

/-- Parameter name under which the object name is passed to a catalog
query (pgModeler's `ParsersAttributes::NAME`). -/
def ATTR_NAME : String := "name"

/-- Parameter name under which the oid filter is passed to a catalog
query (pgModeler's `ParsersAttributes::FILTER_OIDS`). -/
def ATTR_FILTER_OIDS : String := "filter-oids"

/-- Field name holding a catalog row's oid. -/
def ATTR_OID : String := "oid"

/-- Lookup of an attribute in a row, empty string when absent. -/
def getAttr (row : attribs_map) (key : String) : String :=
  match row.find? (fun p => p.1 = key) with
  | some p => p.2
  | none => ""

/-- Modelled from the spec: `Catalog::getMultipleAttributes` (body
missing from the repository).  Executes the attribute-retrieving query
template for the object type with the extra attributes substituted in,
and reshapes every tuple of the result set into one attribute map via
`changeAttributeNames`. -/
def Catalog.getMultipleAttributes (cat : Catalog) (obj_type : ObjectType)
    (extra_attribs : attribs_map) :
    List attribs_map × Catalog × List Query :=
  let (rows, cat2, tr) :=
    cat.executeCatalogQuery QUERY_ATTRIBS obj_type false extra_attribs
  (rows.map changeAttributeNames, cat2, tr)

/-- Modelled from the spec: `Catalog::getAttributes` (body missing from
the repository).  Returns the attribute set for the named object of the
given type: a single-result attribute query, the one tuple reshaped by
`changeAttributeNames`. -/
def Catalog.getAttributes (cat : Catalog) (obj_name : String)
    (obj_type : ObjectType) (extra_attribs : attribs_map) :
    attribs_map × Catalog × List Query :=
  let (rows, cat2, tr) :=
    cat.executeCatalogQuery QUERY_ATTRIBS obj_type true
      ((ATTR_NAME, obj_name) :: extra_attribs)
  (changeAttributeNames (rows.headD []), cat2, tr)

/-- Modelled from the spec: `Catalog::getObjects` (body missing from the
repository).  Runs the list query template for the object type,
filtered by the schema name, and returns the map associating each
returned object's oid to its name. -/
def Catalog.getObjects (cat : Catalog) (obj_type : ObjectType)
    (sch_name : String) : attribs_map × Catalog × List Query :=
  let (rows, cat2, tr) :=
    cat.executeCatalogQuery QUERY_LIST obj_type false [(ATTR_SCHEMA, sch_name)]
  (rows.map (fun row => (getAttr row ATTR_OID, getAttr row ATTR_NAME)), cat2, tr)

/-- Modelled from the spec: `Catalog::getObjectCount` (body missing from
the repository).  Runs the same schema-filtered list query and returns
the tuple count of its result set. -/
def Catalog.getObjectCount (cat : Catalog) (obj_type : ObjectType)
    (sch_name : String) : Nat × Catalog × List Query :=
  let (rows, cat2, tr) :=
    cat.executeCatalogQuery QUERY_LIST obj_type false [(ATTR_SCHEMA, sch_name)]
  (rows.length, cat2, tr)

/-- Comma-separated joining of a list of oids, mirroring the loop the
header documents for `createOidFilter`. -/
def joinComma : List String → String
  | [] => ""
  | [o] => o
  | o :: rest => o ++ "," ++ joinComma rest

/-- Modelled from the spec: `Catalog::createOidFilter` (body missing from
the repository).  Creates a comma separated string containing all the
oids to be filtered. -/
def createOidFilter (oids : List String) : String :=
  joinComma oids

/-- Modelled from the spec: the seven public retrieval members
(`getDatabases` … `getFunctions`, bodies missing from the repository)
all delegate to `getMultipleAttributes` on their object type, passing
the oid filter (and, for extensions and functions, the schema) as extra
attributes.  This is the shared delegation. -/
def Catalog.getFiltered (cat : Catalog) (obj_type : ObjectType)
    (extra : attribs_map) (filter_oids : List String) :
    List attribs_map × Catalog × List Query :=
  cat.getMultipleAttributes obj_type
    ((ATTR_FILTER_OIDS, createOidFilter filter_oids) :: extra)

/-- Modelled from the spec: `Catalog::getDatabases`. -/
def Catalog.getDatabases (cat : Catalog) (filter_oids : List String) :
    List attribs_map × Catalog × List Query :=
  cat.getFiltered .OBJ_DATABASE [] filter_oids

/-- Modelled from the spec: `Catalog::getRoles`. -/
def Catalog.getRoles (cat : Catalog) (filter_oids : List String) :
    List attribs_map × Catalog × List Query :=
  cat.getFiltered .OBJ_ROLE [] filter_oids

/-- Modelled from the spec: `Catalog::getSchemas`. -/
def Catalog.getSchemas (cat : Catalog) (filter_oids : List String) :
    List attribs_map × Catalog × List Query :=
  cat.getFiltered .OBJ_SCHEMA [] filter_oids

/-- Modelled from the spec: `Catalog::getLanguages`. -/
def Catalog.getLanguages (cat : Catalog) (filter_oids : List String) :
    List attribs_map × Catalog × List Query :=
  cat.getFiltered .OBJ_LANGUAGE [] filter_oids

/-- Modelled from the spec: `Catalog::getTablespaces`. -/
def Catalog.getTablespaces (cat : Catalog) (filter_oids : List String) :
    List attribs_map × Catalog × List Query :=
  cat.getFiltered .OBJ_TABLESPACE [] filter_oids

/-- Modelled from the spec: `Catalog::getExtensions` (can filter by
schema as well as by oids). -/
def Catalog.getExtensions (cat : Catalog) (schema : String)
    (filter_oids : List String) : List attribs_map × Catalog × List Query :=
  cat.getFiltered .OBJ_EXTENSION [(ATTR_SCHEMA, schema)] filter_oids

/-- Modelled from the spec: `Catalog::getFunctions` (can filter by
schema as well as by oids). -/
def Catalog.getFunctions (cat : Catalog) (schema : String)
    (filter_oids : List String) : List attribs_map × Catalog × List Query :=
  cat.getFiltered .OBJ_FUNCTION [(ATTR_SCHEMA, schema)] filter_oids

/-- Splitting a comma-separated oid list back into its components: the
reading the database side gives to the filter string built by
`createOidFilter`. -/
def splitCommaAux : List Char → List Char → List String
  | [], acc => [String.mk acc.reverse]
  | c :: cs, acc =>
      if c = ',' then String.mk acc.reverse :: splitCommaAux cs []
      else splitCommaAux cs (c :: acc)

/-- Function `splitComma` splits a string at every comma. -/
def splitComma (s : String) : List String :=
  splitCommaAux s.data []

/-- Modelled from the spec: the available catalog contents, as rows per
object kind — what the templated SQL queries range over. -/
def Database := ObjectType → List attribs_map

/-- Modelled from the spec: semantics of an attribute-retrieving catalog
query over a database.  The query returns the rows of the requested
object kind; when the substituted oid filter is non-empty only the rows
whose oid occurs in the comma-separated filter survive. -/
def execAttribsQuery (db : Database) (q : Query) : List attribs_map :=
  let rows := db q.obj_type
  let filt := getAttr q.params ATTR_FILTER_OIDS
  if filt = "" then rows
  else rows.filter (fun row => (splitComma filt).contains (getAttr row ATTR_OID))

/-- The connection realising `execAttribsQuery` over a database. -/
def semConnection (db : Database) : Connection :=
  ⟨fun q => execAttribsQuery db q⟩

/-- Object kinds of the reverse-engineering import-order comment at the
top of `catalog.h`, in the order the comment lists them. -/
inductive ImportType where
  | ROLE
  | TABLESPACE
  | DATABASE
  | SCHEMA
  | EXTENSION
  | INTRINSIC_FUNCTION
  | USERTYPE
  | LANGUAGE
  | USER_FUNCTION
  | AGGREGATE
  | OPERATOR
  | OPCLASS
  | OPFAMILY
  | COLLATION
  | CONVERSION
  | TABLE
  | COLUMN
  | INDEX
  | RULE
  | TRIGGER
  | CONSTRAINT
  | CAST
  | TABLE_INHERITS
  | VIEW
  | PERMISSION
deriving DecidableEq, Repr, Fintype

/-- Modelled from the spec: rank of each object kind in the listed
sequence of the import-order comment (`catalog.h`, the rule is stated
there and not implemented). -/
def importRank : ImportType → Nat
  | .ROLE => 0
  | .TABLESPACE => 1
  | .DATABASE => 2
  | .SCHEMA => 3
  | .EXTENSION => 4
  | .INTRINSIC_FUNCTION => 5
  | .USERTYPE => 6
  | .LANGUAGE => 7
  | .USER_FUNCTION => 8
  | .AGGREGATE => 9
  | .OPERATOR => 10
  | .OPCLASS => 11
  | .OPFAMILY => 12
  | .COLLATION => 13
  | .CONVERSION => 14
  | .TABLE => 15
  | .COLUMN => 16
  | .INDEX => 17
  | .RULE => 18
  | .TRIGGER => 19
  | .CONSTRAINT => 20
  | .CAST => 21
  | .TABLE_INHERITS => 22
  | .VIEW => 23
  | .PERMISSION => 24

/-- The system-level kinds of the import-order rule: roles, tablespaces,
databases, schemas, extensions and intrinsic functions. -/
def isSystemLevel : ImportType → Bool
  | .ROLE => true
  | .TABLESPACE => true
  | .DATABASE => true
  | .SCHEMA => true
  | .EXTENSION => true
  | .INTRINSIC_FUNCTION => true
  | _ => false

/-- The user-defined kinds the claimed rule names: types, languages,
user functions, operators, tables, columns, indexes, constraints,
views. -/
def isUserDefined : ImportType → Bool
  | .USERTYPE => true
  | .LANGUAGE => true
  | .USER_FUNCTION => true
  | .OPERATOR => true
  | .TABLE => true
  | .COLUMN => true
  | .INDEX => true
  | .CONSTRAINT => true
  | .VIEW => true
  | _ => false

/-- An object to be imported: its kind and its name. -/
structure ImportItem where
  type : ImportType
  name : String
deriving DecidableEq

/-- Modelled from the spec: the import order of the comment — objects
ordered first by kind according to the listed sequence and, within each
kind, by name. -/
def importBefore (a b : ImportItem) : Prop :=
  importRank a.type < importRank b.type ∨
    (importRank a.type = importRank b.type ∧ a.name < b.name)

/-- Spec-side restatement of the key renaming, following the claim's
words: every underscore character of the key is replaced by a dash. -/
def specDashKey (s : String) : String :=
  String.mk (s.data.map (fun c => if c = '_' then '-' else c))

/-- Spec-side restatement of the value adjustment, following the claim's
words: for a field whose name has the suffix `_bool` the value ``t``
becomes ``1`` and ``f`` becomes empty; other values are unchanged. -/
def specValue (name value : String) : String :=
  if name.endsWith BOOL_FIELD then
    if value = PGSQL_TRUE then "1"
    else if value = PGSQL_FALSE then ""
    else value
  else value

/-- A small concrete catalog content used to instantiate the theorems
with hypotheses. -/
def sampleDb : Database := fun t =>
  match t with
  | .OBJ_DATABASE => [[("oid", "1"), ("name", "db1")], [("oid", "2"), ("name", "db2")]]
  | _ => []

/-! ## Helper lemmas -/

/-- Lemma: `replaceUC` is pointwise underscore-to-dash replacement. -/
theorem replaceUC_eq_map (l : List Char) :
    replaceUC l = l.map (fun c => if c = '_' then '-' else c) := by
  induction l with
  | nil => rfl
  | cons c cs ih => simp [replaceUC, ih]

/-- Splitting skips over a comma-free block, accumulating it. -/
theorem splitCommaAux_no_comma (xs : List Char) (ys acc : List Char)
    (h : ',' ∉ xs) :
    splitCommaAux (xs ++ ys) acc = splitCommaAux ys (xs.reverse ++ acc) := by
  induction xs generalizing acc with
  | nil => simp [splitCommaAux]
  | cons c cs ih =>
      rw [List.mem_cons, not_or] at h
      have hc : ¬ c = ',' := fun hcc => h.1 hcc.symm
      have step : splitCommaAux ((c :: cs) ++ ys) acc
          = splitCommaAux (cs ++ ys) (c :: acc) := by
        simp only [List.cons_append, splitCommaAux, if_neg hc, List.append_eq]
      rw [step, ih _ h.2]
      simp

/-- Lemma: `splitComma` undoes `joinComma` on a non-empty list of comma-free
strings. -/
theorem splitComma_joinComma (o : String) (rest : List String)
    (h : ∀ x ∈ o :: rest, ',' ∉ x.data) :
    splitComma (joinComma (o :: rest)) = o :: rest := by
  induction rest generalizing o with
  | nil =>
      have ho := h o (by simp)
      show splitCommaAux (joinComma [o]).data [] = [o]
      have hj : joinComma [o] = o := rfl
      rw [hj, ← List.append_nil o.data, splitCommaAux_no_comma _ _ _ ho]
      simp [splitCommaAux]
  | cons o2 rest2 ih =>
      have ho := h o (by simp)
      have h2 : ∀ x ∈ o2 :: rest2, ',' ∉ x.data := fun x hx => h x (by simp [hx])
      show splitComma (o ++ "," ++ joinComma (o2 :: rest2)) = _
      have hdata : (o ++ "," ++ joinComma (o2 :: rest2)).data =
          o.data ++ (',' :: (joinComma (o2 :: rest2)).data) := by
        simp [String.data_append]
      show splitCommaAux (o ++ "," ++ joinComma (o2 :: rest2)).data [] = _
      rw [hdata, splitCommaAux_no_comma _ _ _ ho]
      simp only [splitCommaAux, if_pos rfl, List.append_nil, List.reverse_reverse]
      exact congrArg (o :: ·) (ih o2 h2)

/-- Looking up the first entry of an attribute list. -/
theorem getAttr_cons_hit (key v : String) (rest : attribs_map) :
    getAttr ((key, v) :: rest) key = v := by
  simp [getAttr, List.find?_cons]

/-- What `getFiltered` returns over the semantic connection: the rows of
the requested kind, restricted by the oid filter when it is non-empty,
reshaped one per row. -/
theorem getFiltered_result (db : Database) (t : ObjectType)
    (extra : attribs_map) (oids : List String) :
    ((⟨semConnection db⟩ : Catalog).getFiltered t extra oids).1 =
      (if createOidFilter oids = "" then db t
       else (db t).filter
         (fun row => (splitComma (createOidFilter oids)).contains
           (getAttr row ATTR_OID))).map changeAttributeNames := by
  simp only [Catalog.getFiltered, Catalog.getMultipleAttributes,
    Catalog.executeCatalogQuery, semConnection, execAttribsQuery,
    getAttr_cons_hit, Bool.false_eq_true, if_false]

/-- Every attribute map returned by a non-trivially filtered retrieval
is the reshaping of an available row whose oid is among the filter. -/
theorem getFiltered_mem_of (db : Database) (t : ObjectType)
    (extra : attribs_map) (oids : List String)
    (hsplit : splitComma (createOidFilter oids) = oids)
    (hfne : createOidFilter oids ≠ "") :
    ∀ m ∈ ((⟨semConnection db⟩ : Catalog).getFiltered t extra oids).1,
      ∃ row ∈ db t, m = changeAttributeNames row ∧ getAttr row ATTR_OID ∈ oids := by
  intro m hm
  rw [getFiltered_result, if_neg hfne, hsplit] at hm
  obtain ⟨row, hrow, rfl⟩ := List.mem_map.1 hm
  obtain ⟨hmem, hpred⟩ := List.mem_filter.1 hrow
  exact ⟨row, hmem, rfl, by simpa using hpred⟩

/-- With an empty oid filter every available row of the kind is
returned. -/
theorem getFiltered_nil (db : Database) (t : ObjectType)
    (extra : attribs_map) :
    ((⟨semConnection db⟩ : Catalog).getFiltered t extra []).1 =
      (db t).map changeAttributeNames := by
  rw [getFiltered_result]
  simp [createOidFilter, joinComma]

/-! ## Claim theorems -/

/-- C1: the catalog reader is a query-templating wrapper — for every
object type, `getMultipleAttributes` executes over the stored connection
exactly the attribute-query template determined by the object type with
the given parameters substituted in, leaves the catalog untouched, and
returns one attribute map (the reshaping by `changeAttributeNames`) per
tuple of the executed catalog query. -/
theorem catalog_query_templating_wrapper (cat : Catalog) (t : ObjectType)
    (extra : attribs_map) :
    cat.getMultipleAttributes t extra =
      ((cat.connection.exec ⟨QUERY_ATTRIBS, t, extra⟩).map changeAttributeNames,
        cat, [⟨QUERY_ATTRIBS, t, extra⟩]) ∧
    ((cat.getMultipleAttributes t extra).1).length =
      (cat.connection.exec ⟨QUERY_ATTRIBS, t, extra⟩).length := by
  refine ⟨rfl, ?_⟩
  simp [Catalog.getMultipleAttributes, Catalog.executeCatalogQuery]

/-- C3: `changeAttributeNames` maps each entry of the attribute map to
the entry with every underscore of the key replaced by a dash and the
value adjusted exactly for `_bool`-suffixed field names (``t`` to ``1``,
``f`` to empty), all other values unchanged. -/
theorem changeAttributeNames_correct (m : attribs_map) :
    changeAttributeNames m =
      m.map (fun p => (specDashKey p.1, specValue p.1 p.2)) := by
  induction m with
  | nil => rfl
  | cons p rest ih =>
      obtain ⟨k, v⟩ := p
      simp [changeAttributeNames, ih, dashedName, specDashKey,
            boolAdjustedValue, specValue, replaceUC_eq_map]

/-- C6: `getObjectCount` agrees with the size of the oid-to-name map
returned by `getObjects` for the same object type and schema over the
same connection state. -/
theorem getObjectCount_eq_getObjects_size (cat : Catalog) (t : ObjectType)
    (sch : String) :
    (cat.getObjectCount t sch).1 = ((cat.getObjects t sch).1).length := by
  simp [Catalog.getObjectCount, Catalog.getObjects, Catalog.executeCatalogQuery]

/-- C4: every attribute map produced by the catalog reader is the
reshaping of exactly one catalog row — `getMultipleAttributes` emits the
rows of the executed query one-to-one, and the reshaping keeps every
field of the row, renaming its key by the documented underscore-to-dash
rule and never merging or dropping fields. -/
theorem attribute_map_one_row (cat : Catalog) (t : ObjectType)
    (extra : attribs_map) :
    (cat.getMultipleAttributes t extra).1 =
      (cat.connection.exec ⟨QUERY_ATTRIBS, t, extra⟩).map changeAttributeNames ∧
    (∀ row : attribs_map, (changeAttributeNames row).length = row.length) ∧
    (∀ row : attribs_map,
      (changeAttributeNames row).map Prod.fst = row.map (fun p => dashedName p.1)) := by
  refine ⟨rfl, ?_, ?_⟩
  · intro row
    induction row with
    | nil => rfl
    | cons p rest ih => simp [changeAttributeNames, ih]
  · intro row
    induction row with
    | nil => rfl
    | cons p rest ih => simp [changeAttributeNames, ih]

/-- C5: the catalog is stateless apart from the stored connection —
every retrieval operation returns the catalog unchanged and issues a
fresh catalog query on each call (its query trace is never empty, and an
immediately repeated identical call re-executes the very same query with
the same result rather than consulting any cache), while `setConnection`
replaces the connection, the only data member. -/
theorem catalog_stateless (cat : Catalog) (conn : Connection)
    (t : ObjectType) (sch nm : String) (extra : attribs_map)
    (oids : List String) :
    ((cat.getObjectCount t sch).2.1 = cat ∧
     (cat.getObjects t sch).2.1 = cat ∧
     (cat.getMultipleAttributes t extra).2.1 = cat ∧
     (cat.getAttributes nm t extra).2.1 = cat ∧
     (cat.getDatabases oids).2.1 = cat ∧
     (cat.getRoles oids).2.1 = cat ∧
     (cat.getSchemas oids).2.1 = cat ∧
     (cat.getLanguages oids).2.1 = cat ∧
     (cat.getTablespaces oids).2.1 = cat ∧
     (cat.getExtensions sch oids).2.1 = cat ∧
     (cat.getFunctions sch oids).2.1 = cat) ∧
    (cat.setConnection conn = ⟨conn⟩) ∧
    ((cat.getMultipleAttributes t extra).2.2 ≠ [] ∧
     ((cat.getMultipleAttributes t extra).2.1.getMultipleAttributes t extra =
        cat.getMultipleAttributes t extra)) := by
  refine ⟨⟨rfl, rfl, rfl, rfl, rfl, rfl, rfl, rfl, rfl, rfl, rfl⟩, rfl, ?_, rfl⟩
  simp [Catalog.getMultipleAttributes, Catalog.executeCatalogQuery]

/-- C2: the import-order rule stated in the `catalog.h` comment — in the
modelled ordering, every system-level object (role, tablespace,
database, schema, extension, intrinsic function) comes before every
user-defined object (type, language, user function, operator, table,
column, index, constraint, view), and two objects of the same kind are
ordered by name. -/
theorem import_order_rule :
    (∀ a b : ImportItem, isSystemLevel a.type = true →
      isUserDefined b.type = true → importBefore a b) ∧
    (∀ (t : ImportType) (n m : String), importBefore ⟨t, n⟩ ⟨t, m⟩ ↔ n < m) := by
  constructor
  · intro a b hs hu
    have hrank : ∀ t u : ImportType, isSystemLevel t = true →
        isUserDefined u = true → importRank t < importRank u := by decide
    exact Or.inl (hrank a.type b.type hs hu)
  · intro t n m
    simp [importBefore]

/-- Witness for C2 at concrete objects: a role (system-level) is
imported before a table (user-defined) regardless of names, and two
tables are compared by name. -/
theorem import_order_rule_witness :
    isSystemLevel ImportType.ROLE = true ∧
    isUserDefined ImportType.TABLE = true ∧
    importBefore ⟨ImportType.ROLE, "zzz"⟩ ⟨ImportType.TABLE, "aaa"⟩ :=
  ⟨rfl, rfl, import_order_rule.1 ⟨ImportType.ROLE, "zzz"⟩
    ⟨ImportType.TABLE, "aaa"⟩ rfl rfl⟩

/-- C7: for every oid-filtered retrieval operation over the semantic
connection — when the oid filter is non-empty (well-formed oids: no
commas, none empty) every returned attribute map is the reshaping of an
available row of that kind whose oid is a member of the filter, and
when the filter is empty all available objects of that kind are
returned. -/
theorem oid_filter_correct (db : Database) (sch : String)
    (oids : List String) (hne : oids ≠ [])
    (hwf : ∀ o ∈ oids, o ≠ "" ∧ ',' ∉ o.data) :
    ((∀ m ∈ ((⟨semConnection db⟩ : Catalog).getDatabases oids).1,
        ∃ row ∈ db ObjectType.OBJ_DATABASE,
          m = changeAttributeNames row ∧ getAttr row ATTR_OID ∈ oids) ∧
     (∀ m ∈ ((⟨semConnection db⟩ : Catalog).getRoles oids).1,
        ∃ row ∈ db ObjectType.OBJ_ROLE,
          m = changeAttributeNames row ∧ getAttr row ATTR_OID ∈ oids) ∧
     (∀ m ∈ ((⟨semConnection db⟩ : Catalog).getSchemas oids).1,
        ∃ row ∈ db ObjectType.OBJ_SCHEMA,
          m = changeAttributeNames row ∧ getAttr row ATTR_OID ∈ oids) ∧
     (∀ m ∈ ((⟨semConnection db⟩ : Catalog).getLanguages oids).1,
        ∃ row ∈ db ObjectType.OBJ_LANGUAGE,
          m = changeAttributeNames row ∧ getAttr row ATTR_OID ∈ oids) ∧
     (∀ m ∈ ((⟨semConnection db⟩ : Catalog).getTablespaces oids).1,
        ∃ row ∈ db ObjectType.OBJ_TABLESPACE,
          m = changeAttributeNames row ∧ getAttr row ATTR_OID ∈ oids) ∧
     (∀ m ∈ ((⟨semConnection db⟩ : Catalog).getExtensions sch oids).1,
        ∃ row ∈ db ObjectType.OBJ_EXTENSION,
          m = changeAttributeNames row ∧ getAttr row ATTR_OID ∈ oids) ∧
     (∀ m ∈ ((⟨semConnection db⟩ : Catalog).getFunctions sch oids).1,
        ∃ row ∈ db ObjectType.OBJ_FUNCTION,
          m = changeAttributeNames row ∧ getAttr row ATTR_OID ∈ oids)) ∧
    (((⟨semConnection db⟩ : Catalog).getDatabases []).1 =
        (db ObjectType.OBJ_DATABASE).map changeAttributeNames ∧
     ((⟨semConnection db⟩ : Catalog).getRoles []).1 =
        (db ObjectType.OBJ_ROLE).map changeAttributeNames ∧
     ((⟨semConnection db⟩ : Catalog).getSchemas []).1 =
        (db ObjectType.OBJ_SCHEMA).map changeAttributeNames ∧
     ((⟨semConnection db⟩ : Catalog).getLanguages []).1 =
        (db ObjectType.OBJ_LANGUAGE).map changeAttributeNames ∧
     ((⟨semConnection db⟩ : Catalog).getTablespaces []).1 =
        (db ObjectType.OBJ_TABLESPACE).map changeAttributeNames ∧
     ((⟨semConnection db⟩ : Catalog).getExtensions sch []).1 =
        (db ObjectType.OBJ_EXTENSION).map changeAttributeNames ∧
     ((⟨semConnection db⟩ : Catalog).getFunctions sch []).1 =
        (db ObjectType.OBJ_FUNCTION).map changeAttributeNames) := by
  obtain ⟨o, rest, rfl⟩ : ∃ o rest, oids = o :: rest := by
    cases oids with
    | nil => cases hne rfl
    | cons o rest => exact ⟨o, rest, rfl⟩
  have hsplit : splitComma (createOidFilter (o :: rest)) = o :: rest :=
    splitComma_joinComma o rest (fun x hx => (hwf x hx).2)
  have hfne : createOidFilter (o :: rest) ≠ "" := by
    intro hemp
    rw [hemp] at hsplit
    have hs : ([""] : List String) = o :: rest := hsplit
    injection hs with h1 h2
    exact (hwf o (by simp)).1 h1.symm
  exact ⟨⟨getFiltered_mem_of db ObjectType.OBJ_DATABASE [] _ hsplit hfne,
          getFiltered_mem_of db ObjectType.OBJ_ROLE [] _ hsplit hfne,
          getFiltered_mem_of db ObjectType.OBJ_SCHEMA [] _ hsplit hfne,
          getFiltered_mem_of db ObjectType.OBJ_LANGUAGE [] _ hsplit hfne,
          getFiltered_mem_of db ObjectType.OBJ_TABLESPACE [] _ hsplit hfne,
          getFiltered_mem_of db ObjectType.OBJ_EXTENSION [(ATTR_SCHEMA, sch)] _ hsplit hfne,
          getFiltered_mem_of db ObjectType.OBJ_FUNCTION [(ATTR_SCHEMA, sch)] _ hsplit hfne⟩,
         getFiltered_nil db ObjectType.OBJ_DATABASE [],
         getFiltered_nil db ObjectType.OBJ_ROLE [],
         getFiltered_nil db ObjectType.OBJ_SCHEMA [],
         getFiltered_nil db ObjectType.OBJ_LANGUAGE [],
         getFiltered_nil db ObjectType.OBJ_TABLESPACE [],
         getFiltered_nil db ObjectType.OBJ_EXTENSION [(ATTR_SCHEMA, sch)],
         getFiltered_nil db ObjectType.OBJ_FUNCTION [(ATTR_SCHEMA, sch)]⟩

/-- Witness for C7 at a concrete database and the concrete filter
`["1"]`: hypotheses hold, and (from the theorem's conclusion) the empty
filter returns every available database row reshaped. -/
theorem oid_filter_correct_witness :
    ((["1"] : List String) ≠ []) ∧
    (∀ o ∈ (["1"] : List String), o ≠ "" ∧ ',' ∉ o.data) ∧
    (((⟨semConnection sampleDb⟩ : Catalog).getDatabases []).1 =
      (sampleDb ObjectType.OBJ_DATABASE).map changeAttributeNames) :=
  ⟨by decide, by decide,
   (oid_filter_correct sampleDb "" ["1"] (by decide) (by decide)).2.1⟩

/-- C8: catalog operations are deterministic functions of the stored
connection's responses and the arguments — two catalogs whose
connections answer every query equally give equal results on every
public operation, with no dependence on hidden shared state. -/
theorem catalog_deterministic (c1 c2 : Catalog) (t : ObjectType)
    (sch nm : String) (extra : attribs_map) (oids : List String)
    (h : ∀ q, c1.connection.exec q = c2.connection.exec q) :
    c1.getObjectCount t sch = c2.getObjectCount t sch ∧
    c1.getObjects t sch = c2.getObjects t sch ∧
    c1.getMultipleAttributes t extra = c2.getMultipleAttributes t extra ∧
    c1.getAttributes nm t extra = c2.getAttributes nm t extra ∧
    c1.getDatabases oids = c2.getDatabases oids ∧
    c1.getRoles oids = c2.getRoles oids ∧
    c1.getSchemas oids = c2.getSchemas oids ∧
    c1.getLanguages oids = c2.getLanguages oids ∧
    c1.getTablespaces oids = c2.getTablespaces oids ∧
    c1.getExtensions sch oids = c2.getExtensions sch oids ∧
    c1.getFunctions sch oids = c2.getFunctions sch oids := by
  obtain ⟨⟨e1⟩⟩ := c1
  obtain ⟨⟨e2⟩⟩ := c2
  have he : e1 = e2 := funext h
  subst he
  exact ⟨rfl, rfl, rfl, rfl, rfl, rfl, rfl, rfl, rfl, rfl, rfl⟩

/-- Witness for C8 at two concrete catalogs over the same semantic
connection: their `getObjects` results agree. -/
theorem catalog_deterministic_witness :
    (⟨semConnection sampleDb⟩ : Catalog).getObjects ObjectType.OBJ_TABLE "" =
      (⟨semConnection sampleDb⟩ : Catalog).getObjects ObjectType.OBJ_TABLE "" :=
  (catalog_deterministic ⟨semConnection sampleDb⟩ ⟨semConnection sampleDb⟩
    ObjectType.OBJ_TABLE "" "" [] [] (fun _ => rfl)).2.1

end PgCatalog

